import Mathlib

/-!
Verification of the sync and query engine of the vscode-M365-Update repository
(MCP server mirroring the Microsoft 365 Roadmap feed into SQLite).

The TypeScript sources are shallowly embedded as pure Lean functions:

* the SQLite store (tables of `schema.sql`) becomes the `DbState` structure;
  a SQL statement becomes a function `DbState → DbState` (or `Except` for
  statements that can violate a constraint);
* `src/mcp/database/queries.ts` row operations become functions on `DbState`;
* `src/mcp/services/sync.service.ts` `performSync` becomes a function taking
  the fetch outcome (the HTTP world) as an `Except`-valued argument and clock
  readings as explicit string/number arguments;
* `src/mcp/api/m365RoadmapClient.ts` `fetchWithRetry` becomes a function over
  a supply of per-attempt outcomes (attempt number to network result), with
  the slept backoff delays returned as data;
* the better-sqlite3 `db.transaction` rollback semantics is embedded by state
  passing: the caller keeps the pre-transaction state when the body errors.

Timestamps are ISO 8601 / year-month strings compared lexicographically, which
is exactly what both the JavaScript string comparison operators and the SQLite
BINARY text collation do on such (ASCII) strings.
-/

namespace M365Update

/-! ## Data model, from src/mcp/api/types.ts and src/mcp/database/schema.sql -/

/-- Availability sub-record of a feature (ring, year, month). -/
structure M365Availability where
  ring : String
  year : Int
  month : String
deriving DecidableEq, Repr

/-- One record of the remote M365 Roadmap feed (interface M365RoadmapFeature). -/
structure M365RoadmapFeature where
  id : Int
  title : String
  description : Option String
  cloudInstances : List String
  platforms : List String
  releaseRings : List String
  products : List String
  generalAvailabilityDate : Option String
  previewAvailabilityDate : Option String
  status : String
  created : String
  modified : String
  availabilities : List M365Availability
deriving DecidableEq, Repr

/-- One row of the m365_features table. -/
structure FeatureRow where
  id : Int
  title : String
  description : Option String
  status : String
  generalAvailabilityDate : Option String
  previewAvailabilityDate : Option String
  created : String
  modified : String
deriving DecidableEq, Repr

/-- The singleton sync_checkpoint row (id = 1). -/
structure SyncCheckpoint where
  lastSync : String
  syncStatus : String
  recordCount : Int
  lastSyncDurationMs : Option Int
  lastError : Option String
  updatedAt : String
deriving DecidableEq, Repr

/-- The SQLite database state: the feature table, the four association tables,
the availability table, the singleton checkpoint row and the api_cache etag. -/
structure DbState where
  features : List FeatureRow
  featureProducts : List (Int × String)
  featurePlatforms : List (Int × String)
  featureCloudInstances : List (Int × String)
  featureReleaseRings : List (Int × String)
  featureAvailabilities : List (Int × M365Availability)
  checkpoint : SyncCheckpoint
  etag : Option String
deriving DecidableEq, Repr

/-- Computable strict lexicographic comparison of strings, the order used by
both the JavaScript comparison operators and the SQLite BINARY collation on
the (ASCII) timestamp and year-month strings this system compares. It is
stated on the character lists, which coincides with the String order
(String.lt_iff_toList_lt) while reducing inside the kernel. -/
def strLtb (a b : String) : Bool :=
  decide (a.toList < b.toList)

/-- Computable lexicographic less-or-equal on strings. -/
def strLeb (a b : String) : Bool :=
  decide (a.toList ≤ b.toList)

/-- Whitespace trim, the JavaScript String.prototype.trim, realized on the
character list so that it reduces inside the kernel. -/
def strTrim (s : String) : String :=
  String.mk (((s.toList.dropWhile Char.isWhitespace).reverse.dropWhile
    Char.isWhitespace).reverse)

/-- Maximal runs of characters not satisfying the whitespace predicate; the
accumulator carries the current run reversed. This is trim plus split on the
regex of one-or-more whitespace: no empty tokens are produced. -/
def wsTokensAux (cur : List Char) : List Char → List (List Char)
  | [] => if cur.isEmpty then [] else [cur.reverse]
  | c :: cs =>
    if c.isWhitespace then
      if cur.isEmpty then wsTokensAux [] cs
      else cur.reverse :: wsTokensAux [] cs
    else wsTokensAux (c :: cur) cs

/-- The whitespace tokens of a string. -/
def wsTokens (s : String) : List String :=
  (wsTokensAux [] s.toList).map String.mk

/-! ## Checkpoint operations, from src/mcp/database/queries.ts -/

/-- startSync: UPDATE sync_checkpoint SET sync_status = 'syncing',
updated_at = now WHERE id = 1 AND sync_status != 'syncing'; returns
changes > 0. The single conditional UPDATE is one atomic transition. -/
def startSync (db : DbState) (now : String) : Bool × DbState :=
  if db.checkpoint.syncStatus ≠ "syncing" then
    (true, { db with checkpoint :=
      { db.checkpoint with syncStatus := "syncing", updatedAt := now } })
  else
    (false, db)

/-- completeSyncSuccess: set last_sync, status idle, record_count, duration,
clear last_error, touch updated_at. -/
def completeSyncSuccess (db : DbState) (lastSync : String) (recordCount : Int)
    (durationMs : Int) (now : String) : DbState :=
  { db with checkpoint :=
    { lastSync := lastSync
      syncStatus := "idle"
      recordCount := recordCount
      lastSyncDurationMs := some durationMs
      lastError := none
      updatedAt := now } }

/-- completeSyncFailure: set status idle, record the error message, touch
updated_at; last_sync, record_count and duration keep their values. -/
def completeSyncFailure (db : DbState) (errorMessage : String) (now : String) : DbState :=
  { db with checkpoint :=
    { db.checkpoint with
      syncStatus := "idle"
      lastError := some errorMessage
      updatedAt := now } }

/-- saveETag: upsert the singleton api_cache row. -/
def saveETag (db : DbState) (etag : String) : DbState :=
  { db with etag := some etag }

/-- Accumulator step of the SQL MAX aggregate over the modified column. -/
def lmStep (acc : Option String) (r : FeatureRow) : Option String :=
  match acc with
  | none => some r.modified
  | some m => if strLtb m r.modified then some r.modified else some m

/-- getLastModified: SELECT MAX(modified) FROM m365_features, NULL on an
empty table. SQL MAX over a TEXT column is the lexicographic maximum. -/
def getLastModified (db : DbState) : Option String :=
  db.features.foldl lmStep none

/-- getFeatureCount: SELECT COUNT(*) FROM m365_features. -/
def getFeatureCount (db : DbState) : Nat :=
  db.features.length

/-! ## Feature CRUD, from src/mcp/database/queries.ts -/

/-- Row produced by the INSERT arm of upsertFeature. -/
def rowOfFeature (f : M365RoadmapFeature) : FeatureRow :=
  { id := f.id
    title := f.title
    description := f.description
    status := f.status
    generalAvailabilityDate := f.generalAvailabilityDate
    previewAvailabilityDate := f.previewAvailabilityDate
    created := f.created
    modified := f.modified }

/-- The DO UPDATE arm of upsertFeature applied to one row: the scalar columns
listed in the conflict clause (title, description, status, the two dates and
modified) are overwritten on the row with the conflicting id; id and created
are not in the SET list of the source statement. -/
def updateRowScalars (f : M365RoadmapFeature) (r : FeatureRow) : FeatureRow :=
  if r.id = f.id then
    { r with
      title := f.title
      description := f.description
      status := f.status
      generalAvailabilityDate := f.generalAvailabilityDate
      previewAvailabilityDate := f.previewAvailabilityDate
      modified := f.modified }
  else r

/-- upsertFeature: INSERT the row, ON CONFLICT(id) DO UPDATE its scalar
columns via updateRowScalars. -/
def upsertFeature (db : DbState) (f : M365RoadmapFeature) : DbState :=
  if db.features.any (fun r => r.id = f.id) then
    { db with features := db.features.map (updateRowScalars f) }
  else
    { db with features := db.features ++ [rowOfFeature f] }

/-- INSERT INTO an association table with composite primary key
(feature_id, tag): a duplicate key raises a UNIQUE constraint error. -/
def insertAssoc (tbl : List (Int × String)) (fid : Int) (tag : String) :
    Except String (List (Int × String)) :=
  if tbl.any (fun p => p.1 = fid ∧ p.2 = tag) then
    .error "UNIQUE constraint failed"
  else
    .ok (tbl ++ [(fid, tag)])

/-- DELETE FROM an association table all rows of one feature. -/
def deleteAssoc (tbl : List (Int × String)) (fid : Int) : List (Int × String) :=
  tbl.filter (fun p => ¬ p.1 = fid)

/-- Run the prepared INSERT once per tag, left to right, stopping at the
first constraint violation (the source loops insert.run over the array). -/
def insertAssocList (tbl : List (Int × String)) (fid : Int) :
    List String → Except String (List (Int × String))
  | [] => .ok tbl
  | t :: ts => do insertAssocList (← insertAssoc tbl fid t) fid ts

/-- replaceFeatureProducts: DELETE all rows of the feature, then insert the
given tags one by one (no deduplication of the input). -/
def replaceFeatureProducts (db : DbState) (fid : Int) (products : List String) :
    Except String DbState :=
  let tbl := deleteAssoc db.featureProducts fid
  (insertAssocList tbl fid products).map (fun t => { db with featureProducts := t })

/-- replaceFeaturePlatforms: same shape as replaceFeatureProducts. -/
def replaceFeaturePlatforms (db : DbState) (fid : Int) (platforms : List String) :
    Except String DbState :=
  let tbl := deleteAssoc db.featurePlatforms fid
  (insertAssocList tbl fid platforms).map (fun t => { db with featurePlatforms := t })

/-- replaceFeatureCloudInstances: same shape as replaceFeatureProducts. -/
def replaceFeatureCloudInstances (db : DbState) (fid : Int) (instances : List String) :
    Except String DbState :=
  let tbl := deleteAssoc db.featureCloudInstances fid
  (insertAssocList tbl fid instances).map (fun t => { db with featureCloudInstances := t })

/-- replaceFeatureReleaseRings: same shape as replaceFeatureProducts. -/
def replaceFeatureReleaseRings (db : DbState) (fid : Int) (rings : List String) :
    Except String DbState :=
  let tbl := deleteAssoc db.featureReleaseRings fid
  (insertAssocList tbl fid rings).map (fun t => { db with featureReleaseRings := t })

/-- replaceFeatureAvailabilities: delete then insert; the table has a surrogate
autoincrement key, so inserts never violate a constraint. -/
def replaceFeatureAvailabilities (db : DbState) (fid : Int)
    (avails : List M365Availability) : DbState :=
  { db with featureAvailabilities :=
      db.featureAvailabilities.filter (fun p => ¬ p.1 = fid)
        ++ avails.map (fun a => (fid, a)) }

/-! ## Search engine, from searchFeatures in src/mcp/database/queries.ts -/

/-- Search filter record (interface M365SearchFilters). -/
structure M365SearchFilters where
  query : Option String := none
  products : Option (List String) := none
  status : Option String := none
  platforms : Option (List String) := none
  dateFrom : Option String := none
  dateTo : Option String := none
  limit : Option Int := none
  offset : Option Int := none
deriving DecidableEq, Repr

/-- Lightweight search result row (interface M365SearchResultItem plus the
description summary column the query selects). -/
structure M365SearchResultItem where
  id : Int
  title : String
  description : Option String
  status : String
  products : List String
  platforms : List String
  generalAvailabilityDate : Option String
  previewAvailabilityDate : Option String
  modified : String
deriving DecidableEq, Repr

/-- Search outcome: the page of rows and the unpaged match count. -/
structure SearchOutput where
  results : List M365SearchResultItem
  totalCount : Nat
deriving DecidableEq, Repr

/-- The non-FTS part of the WHERE clause assembled by searchFeatures: status
equality, GA date range (a NULL date fails a SQL comparison, so rows without a
GA date are excluded once a bound is given), and IN-subquery membership for
product and platform tag lists (empty or absent lists add no condition). -/
def rowMatchesFilters (db : DbState) (fl : M365SearchFilters) (r : FeatureRow) : Bool :=
  (match fl.status with
   | none => true
   | some s => r.status = s) &&
  (match fl.dateFrom with
   | none => true
   | some d =>
     match r.generalAvailabilityDate with
     | none => false
     | some g => strLeb d g) &&
  (match fl.dateTo with
   | none => true
   | some d =>
     match r.generalAvailabilityDate with
     | none => false
     | some g => strLeb g d) &&
  (match fl.products with
   | none => true
   | some ps =>
     ps.isEmpty || db.featureProducts.any (fun p => p.1 = r.id ∧ ps.contains p.2)) &&
  (match fl.platforms with
   | none => true
   | some ps =>
     ps.isEmpty || db.featurePlatforms.any (fun p => p.1 = r.id ∧ ps.contains p.2))

/-- Words of an indexed document, as the FTS5 unicode61 tokenizer produces
them: maximal runs of alphanumeric characters, lowercased. -/
def ftsWords (s : String) : List String :=
  (wsTokensAux [] (s.toList.map (fun c => if c.isAlphanum then c.toLower else ' '))).map
    String.mk

/-- One prefix term of an FTS query (written word*) matches a document when
some word of the document starts with the term, case-insensitively. -/
def ftsTermMatches (term : String) (doc : List String) : Bool :=
  let stem := (term.toList.filter (fun c => c ≠ '*')).map Char.toLower
  doc.any (fun w => stem.isPrefixOf w.toList)

/-- MATCH of a whitespace-joined list of prefix terms against the title plus
description index of a row: the terms are ANDed. -/
def ftsMatchRow (ftsQuery : String) (r : FeatureRow) : Bool :=
  let doc := ftsWords r.title ++ ftsWords (r.description.getD "")
  (wsTokens ftsQuery).all (fun t => ftsTermMatches t doc)

/-- The ORDER BY modified DESC comparison, realized as insertion into a list
already sorted by modified descending. -/
def insertDesc (r : FeatureRow) : List FeatureRow → List FeatureRow
  | [] => [r]
  | x :: xs => if strLtb x.modified r.modified then r :: x :: xs else x :: insertDesc r xs

/-- Sort rows by modified descending (insertion sort; SQLite leaves the order
of equal keys unspecified, so any deterministic order among ties is a faithful
refinement). -/
def sortByModifiedDesc (l : List FeatureRow) : List FeatureRow :=
  l.foldr insertDesc []

/-- The description summary computed per result row: first 200 characters
plus an ellipsis marker when longer than 200. -/
def descriptionSummary (d : Option String) : Option String :=
  match d with
  | none => none
  | some s => if s.length > 200 then some ((s.take 200).append "...") else some s

/-- Shape one feature row into a search result item, joining its product and
platform tags from the association tables. -/
def resultItemOfRow (db : DbState) (r : FeatureRow) : M365SearchResultItem :=
  { id := r.id
    title := r.title
    description := descriptionSummary r.description
    status := r.status
    products := (db.featureProducts.filter (fun p => p.1 = r.id)).map Prod.snd
    platforms := (db.featurePlatforms.filter (fun p => p.1 = r.id)).map Prod.snd
    generalAvailabilityDate := r.generalAvailabilityDate
    previewAvailabilityDate := r.previewAvailabilityDate
    modified := r.modified }

/-- The rows matching the WHERE clause, with the optional FTS MATCH applied on
top of the relational filters. -/
def matchingRows (db : DbState) (ftsQ : Option String) (fl : M365SearchFilters) :
    List FeatureRow :=
  let base := db.features.filter (fun r => rowMatchesFilters db fl r)
  match ftsQ with
  | none => base
  | some q => base.filter (fun r => ftsMatchRow q r)

/-- Core of searchFeatures, parameterized by the FTS query string the caller
assembled (none when the text path is not taken): filter, order by modified
descending, then LIMIT/OFFSET (SQLite treats a negative LIMIT as unbounded and
a negative OFFSET as zero), count without LIMIT/OFFSET, and shape each row. -/
def searchFeaturesWith (db : DbState) (ftsQ : Option String)
    (fl : M365SearchFilters) : SearchOutput :=
  let limit := fl.limit.getD 10000
  let offset := fl.offset.getD 0
  let matching := matchingRows db ftsQ fl
  let ordered := sortByModifiedDesc matching
  let page :=
    if limit < 0 then ordered.drop offset.toNat
    else (ordered.drop offset.toNat).take limit.toNat
  { results := page.map (resultItemOfRow db)
    totalCount := matching.length }

/-- The FTS query string searchFeatures assembles: trim, split on whitespace,
append a star to every token, join with spaces (no sanitization in the
queries.ts revision vendored under src). -/
def sourceFtsQuery (q : String) : String :=
  String.intercalate " " ((wsTokens q).map (fun w => w ++ "*"))

/-- The FTS path decision of the searchFeatures vendored in src (unnamed
part_005): taken whenever the query is present with a nonempty trim, with the
unsanitized prefix query string. -/
def sourceFtsChoice (fl : M365SearchFilters) : Option String :=
  match fl.query with
  | none => none
  | some q => if strTrim q ≠ "" then some (sourceFtsQuery q) else none

def searchFeatures (db : DbState) (fl : M365SearchFilters) : SearchOutput :=
  searchFeaturesWith db (sourceFtsChoice fl) fl

/-- Modelled from the spec: buildFtsPrefixQuery, exported by the current
queries.ts, is missing from src — only its vitest file (unnamed part_004)
imports it. Per the spec, the query is tokenized on whitespace, every token is
stripped of all non-alphanumeric characters, tokens that become empty are
dropped, the survivors get a star appended and are joined with spaces; if
every token is dropped the result is null (query treated as absent). -/
def buildFtsPrefixQuery (q : String) : Option String :=
  let tokens :=
    ((wsTokens q).map (fun t => String.mk (t.toList.filter Char.isAlphanum))).filter
      (fun t => t ≠ "")
  if tokens.isEmpty then none
  else some (String.intercalate " " (tokens.map (fun t => t ++ "*")))

/-- Modelled from the spec: the current searchFeatures gates its FTS path on
buildFtsPrefixQuery, falling back to the no-text-filter path (other filters
still applied) when the sanitized query is null. -/
def searchFeaturesCurrent (db : DbState) (fl : M365SearchFilters) : SearchOutput :=
  let ftsQ :=
    match fl.query with
    | none => none
    | some q => buildFtsPrefixQuery q
  searchFeaturesWith db ftsQ fl

/-! ## Sync coordinator, from src/mcp/services/sync.service.ts -/

/-- Result record returned by performSync (interface SyncResult). -/
structure SyncResult where
  success : Bool
  recordsProcessed : Nat
  recordsInserted : Int
  recordsUpdated : Int
  durationMs : Nat
  error : Option String
deriving DecidableEq, Repr

/-- Outcome of fetchAllFeaturesWithETag (interface FetchResult). -/
structure FetchResult where
  modified : Bool
  features : List M365RoadmapFeature
  etag : Option String
deriving DecidableEq, Repr

/-- createSyncFailureResult from sync.service.ts. -/
def createSyncFailureResult (durationMs : Nat) (error : String) : SyncResult :=
  { success := false
    recordsProcessed := 0
    recordsInserted := 0
    recordsUpdated := 0
    durationMs := durationMs
    error := some error }

/-- Body of the per-feature loop of syncFeaturesInTransaction: upsert the main
record, then replace the four association sets and the availabilities. -/
def syncOneFeature (db : DbState) (f : M365RoadmapFeature) : Except String DbState := do
  let db := upsertFeature db f
  let db ← replaceFeatureProducts db f.id f.products
  let db ← replaceFeaturePlatforms db f.id f.platforms
  let db ← replaceFeatureCloudInstances db f.id f.cloudInstances
  let db ← replaceFeatureReleaseRings db f.id f.releaseRings
  pure (replaceFeatureAvailabilities db f.id f.availabilities)

/-- The transaction body: features processed in order; a failure on one record
is rethrown (wrapped with the feature id) and aborts the whole body. Returns
the written state and the processed count. -/
def syncFeaturesInTransaction (db : DbState) :
    List M365RoadmapFeature → Except String (DbState × Nat)
  | [] => .ok (db, 0)
  | f :: fs =>
    match syncOneFeature db f with
    | .error e =>
      .error ("Failed to sync feature " ++ toString f.id ++ ": " ++ e)
    | .ok db1 =>
      match syncFeaturesInTransaction db1 fs with
      | .error e => .error e
      | .ok (db2, n) => .ok (db2, n + 1)

/-- The differential set computed by performSync: records whose modified
timestamp strictly exceeds the watermark, or all fetched records when the
store has no watermark. -/
def featuresToSync (db : DbState) (features : List M365RoadmapFeature) :
    List M365RoadmapFeature :=
  match getLastModified db with
  | none => features
  | some lm => features.filter (fun f => strLtb lm f.modified)

/-- The new watermark written on success: the maximum modified over the
fetched set, seeded with the prior checkpoint last_sync (or the epoch sentinel
when that is the empty string, mirroring the JavaScript or-else). -/
def latestModifiedOf (checkpointLastSync : String)
    (features : List M365RoadmapFeature) : String :=
  features.foldl
    (fun latest f => if strLtb latest f.modified then f.modified else latest)
    (if checkpointLastSync = "" then "1970-01-01T00:00:00.000Z" else checkpointLastSync)

/-- performSync: acquire the lock, fetch (the outcome is passed in as data),
short-circuit on 304 or an empty feed, diff against the watermark, write the
differential set in one transaction (rollback = keep the pre-transaction
state), persist the etag, finalize the checkpoint; every caught error ends in
completeSyncFailure. The wall clock is passed in: now is the datetime written
to updated_at, nowIso the ISO timestamp used as last_sync on the 304 and
empty-feed paths, durationMs the elapsed time. -/
def performSync (db : DbState) (fetch : Except String FetchResult)
    (now nowIso : String) (durationMs : Nat) : SyncResult × DbState :=
  match startSync db now with
  | (false, db0) =>
    (createSyncFailureResult durationMs "Sync already in progress", db0)
  | (true, db1) =>
    let recordCountBefore := getFeatureCount db1
    match fetch with
    | .error e =>
      (createSyncFailureResult durationMs e, completeSyncFailure db1 e now)
    | .ok fr =>
      if fr.modified = false then
        ({ success := true, recordsProcessed := 0, recordsInserted := 0,
           recordsUpdated := 0, durationMs := durationMs, error := none },
         completeSyncSuccess db1 nowIso recordCountBefore durationMs now)
      else if fr.features.isEmpty then
        ({ success := true, recordsProcessed := 0, recordsInserted := 0,
           recordsUpdated := 0, durationMs := durationMs, error := none },
         completeSyncSuccess db1 nowIso recordCountBefore durationMs now)
      else
        let toSync := featuresToSync db1 fr.features
        match syncFeaturesInTransaction db1 toSync with
        | .error e =>
          (createSyncFailureResult durationMs e, completeSyncFailure db1 e now)
        | .ok (db2, processed) =>
          let recordCountAfter := getFeatureCount db2
          let db3 :=
            match fr.etag with
            | some t => saveETag db2 t
            | none => db2
          let latest := latestModifiedOf db1.checkpoint.lastSync fr.features
          let db4 := completeSyncSuccess db3 latest recordCountAfter durationMs now
          let inserted : Int := max 0 ((recordCountAfter : Int) - recordCountBefore)
          ({ success := true
             recordsProcessed := processed
             recordsInserted := inserted
             recordsUpdated := (processed : Int) - inserted
             durationMs := durationMs
             error := none },
           db4)

/-! ## Retry client, from fetchWithRetry in src/mcp/api/m365RoadmapClient.ts -/

/-- HTTP response as far as fetchWithRetry inspects it. The Fetch API ok flag
is status in 200..299. -/
structure HttpResponse where
  status : Nat
  statusText : String
deriving DecidableEq, Repr

/-- Whether the Fetch API would set response.ok. -/
def HttpResponse.isOk (r : HttpResponse) : Bool :=
  200 ≤ r.status && r.status ≤ 299

/-- One attempt of the inner try block: a rejected fetch promise (network
error, or the AbortController firing on timeout) is an error value; a
fulfilled promise carries the response. -/
abbrev AttemptOutcome := Except String HttpResponse

/-- How the try block classifies one attempt: a 304 returns not-modified, an
ok response returns it, anything else (network error, timeout abort, non-2xx
non-304 status) lands in the catch as a failure with the thrown message. -/
inductive AttemptClass where
  | notModified (r : HttpResponse)
  | success (r : HttpResponse)
  | failed (e : String)
deriving DecidableEq, Repr

/-- Classification of a single attempt outcome, in the order of the source:
304 first, then the ok check whose failure throws HTTP status: statusText. -/
def classifyAttempt : AttemptOutcome → AttemptClass
  | .error e => .failed e
  | .ok r =>
    if r.status = 304 then .notModified r
    else if r.isOk then .success r
    else .failed ("HTTP " ++ toString r.status ++ ": " ++ r.statusText)

/-- MAX_RETRIES from the source. -/
def MAX_RETRIES : Nat := 3

/-- RETRY_DELAY_MS from the source. -/
def RETRY_DELAY_MS : Nat := 1000

/-- The for loop of fetchWithRetry over a supply of attempt outcomes, indexed
by the 1-based attempt number; returns the result together with the backoff
delays slept between attempts (RETRY_DELAY_MS * 2 ^ (attempt - 1)). On the
last attempt the caught error is rethrown unchanged. -/
def retryLoop (supply : Nat → AttemptOutcome) :
    Nat → Except String (HttpResponse × Bool) × List Nat
  | 0 => (.error "Unreachable", [])
  | remaining + 1 =>
    let attempt := MAX_RETRIES - remaining
    match classifyAttempt (supply attempt) with
    | .notModified r => (.ok (r, true), [])
    | .success r => (.ok (r, false), [])
    | .failed e =>
      if remaining = 0 then (.error e, [])
      else
        let rest := retryLoop supply remaining
        (rest.1, RETRY_DELAY_MS * 2 ^ (attempt - 1) :: rest.2)

/-- Options record of fetchWithRetry; timeoutMs defaults to 30000. -/
structure FetchOptions where
  timeoutMs : Option Nat := none
deriving DecidableEq, Repr

/-- Trace of one fetchWithRetry call: the result (response plus notModified
flag, or the error surfaced after the retry budget), the number of attempts
consumed, the backoff delays slept, and the per-attempt timeout in force. -/
structure RetryTrace where
  result : Except String (HttpResponse × Bool)
  attemptsUsed : Nat
  delays : List Nat
  timeoutMsUsed : Nat
deriving Repr

/-- fetchWithRetry over a supply of per-attempt outcomes. Every recursion of
the loop sleeps exactly one backoff delay, so the attempts consumed are the
delays slept plus the final attempt. -/
def fetchWithRetry (options : FetchOptions) (supply : Nat → AttemptOutcome) :
    RetryTrace :=
  let res := retryLoop supply MAX_RETRIES
  { result := res.1
    attemptsUsed := res.2.length + 1
    delays := res.2
    timeoutMsUsed := options.timeoutMs.getD 30000 }

/-! ## Search tool handler, from src/mcp/tools/searchM365Roadmap.ts -/

/-- Raw tool arguments (interface SearchParams); the numeric fields are
modelled as integers, the separate Number.isInteger runtime check being
subsumed by the type. -/
structure SearchParams where
  query : Option String := none
  products : Option (List String) := none
  platforms : Option (List String) := none
  status : Option String := none
  dateFrom : Option String := none
  dateTo : Option String := none
  limit : Option Int := none
  offset : Option Int := none
deriving DecidableEq, Repr

/-- MAX_LIMIT from the source. -/
def MAX_LIMIT : Int := 10000

/-- normalizeOptionalString: trim, and treat an empty trim as absent. -/
def normalizeOptionalString : Option String → Option String
  | none => none
  | some s => if strTrim s = "" then none else some (strTrim s)

/-- normalizeOptionalStringArray: trim every entry, drop the empties, and
treat an empty remainder as absent. -/
def normalizeOptionalStringArray : Option (List String) → Option (List String)
  | none => none
  | some xs =>
    let n := (xs.map strTrim).filter (fun x => x ≠ "")
    if n.isEmpty then none else some n

/-- isValidYearMonth: the regex 4 digits, dash, 01 to 12. -/
def isValidYearMonth (s : String) : Bool :=
  match s.toList with
  | [a, b, c, d, e, f, g] =>
    a.isDigit && b.isDigit && c.isDigit && d.isDigit && e = '-' &&
      ((f = '0' && g.isDigit && g ≠ '0') || (f = '1' && (g = '0' || g = '1' || g = '2')))
  | _ => false

/-- Left-pad a month number to two digits, as String(x).padStart(2, "0"). -/
def pad2 (n : Nat) : String :=
  if n < 10 then "0" ++ toString n else toString n

/-- Render a year and 0-based month as the YYYY-MM string the handler builds. -/
def ymString (year : Int) (month0 : Nat) : String :=
  toString year ++ "-" ++ pad2 (month0 + 1)

/-- First day of the previous calendar month as YYYY-MM: the JavaScript
Date(year, month - 1 - 1 + 1, 1) constructor normalizes a January rollover to
December of the previous year. The clock is passed in the 0-based month
convention of getMonth. -/
def defaultWindowFrom (nowYear : Int) (nowMonth0 : Nat) : String :=
  if nowMonth0 = 0 then ymString (nowYear - 1) 11
  else ymString nowYear (nowMonth0 - 1)

/-- The current calendar month as YYYY-MM. -/
def defaultWindowTo (nowYear : Int) (nowMonth0 : Nat) : String :=
  ymString nowYear nowMonth0

/-- The effective GA date range the handler passes to searchFeatures: the
implicit previous-month-through-current-month window is synthesized exactly
when every normalized filter dimension is absent. -/
def effectiveDateRange (nowYear : Int) (nowMonth0 : Nat)
    (query : Option String) (products platforms : Option (List String))
    (status dateFrom dateTo : Option String) : Option String × Option String :=
  if dateFrom = none ∧ dateTo = none ∧ query = none ∧ products = none ∧
      platforms = none ∧ status = none then
    (some (defaultWindowFrom nowYear nowMonth0), some (defaultWindowTo nowYear nowMonth0))
  else
    (dateFrom, dateTo)

/-- Search tool response: an error payload, or results (each with its derived
roadmap URL) plus totalCount and hasMore. -/
inductive SearchToolOutcome where
  | failure (msg : String)
  | ok (results : List (M365SearchResultItem × String)) (totalCount : Nat) (hasMore : Bool)
deriving DecidableEq, Repr

/-- The reference URL appended to every search result. -/
def roadmapUrl (id : Int) : String :=
  "https://www.microsoft.com/ja-jp/microsoft-365/roadmap?filters=&searchterms="
    ++ toString id

/-- handleSearchM365Roadmap: normalize the string arguments, validate limit,
offset and the date bounds, synthesize the default GA window when no filter
dimension is supplied, run searchFeatures, and shape the response with
hasMore = offset + returned < totalCount. The wall clock (0-based month) is
an explicit argument. -/
def handleSearchM365Roadmap (nowYear : Int) (nowMonth0 : Nat) (db : DbState)
    (params : SearchParams) : SearchToolOutcome :=
  let query := normalizeOptionalString params.query
  let products := normalizeOptionalStringArray params.products
  let platforms := normalizeOptionalStringArray params.platforms
  let status := normalizeOptionalString params.status
  let dateFrom := normalizeOptionalString params.dateFrom
  let dateTo := normalizeOptionalString params.dateTo
  if params.limit.any (fun l => l < 1 ∨ l > MAX_LIMIT) then
    .failure "Invalid parameter: limit (must be an integer between 1 and 10000)"
  else if params.offset.any (fun o => o < 0) then
    .failure "Invalid parameter: offset (must be a non-negative integer)"
  else if dateFrom.any (fun d => ¬ isValidYearMonth d) then
    .failure "Invalid parameter: dateFrom (must be YYYY-MM format)"
  else if dateTo.any (fun d => ¬ isValidYearMonth d) then
    .failure "Invalid parameter: dateTo (must be YYYY-MM format)"
  else if (match dateFrom, dateTo with
           | some a, some b => strLtb b a
           | _, _ => false) then
    .failure "Invalid parameters: dateFrom must be earlier than or equal to dateTo"
  else
    let offset := params.offset.getD 0
    let range := effectiveDateRange nowYear nowMonth0 query products platforms
      status dateFrom dateTo
    let effectiveLimit := params.limit.getD MAX_LIMIT
    let result := searchFeatures db
      { query := query
        products := products
        platforms := platforms
        status := status
        dateFrom := range.1
        dateTo := range.2
        limit := some effectiveLimit
        offset := some offset }
    .ok (result.results.map (fun item => (item, roadmapUrl item.id)))
      result.totalCount
      (offset + (result.results.length : Int) < (result.totalCount : Int))

/-! ## Concrete instances used to witness the theorems -/

/-- Checkpoint row as seeded by schema.sql. -/
def ckIdle : SyncCheckpoint :=
  { lastSync := "1970-01-01T00:00:00.000Z"
    syncStatus := "idle"
    recordCount := 0
    lastSyncDurationMs := none
    lastError := none
    updatedAt := "t0" }

/-- Empty store with the seeded checkpoint. -/
def emptyDb : DbState :=
  { features := []
    featureProducts := []
    featurePlatforms := []
    featureCloudInstances := []
    featureReleaseRings := []
    featureAvailabilities := []
    checkpoint := ckIdle
    etag := none }

/-- Store whose checkpoint is marked syncing. -/
def dbSyncingEx : DbState :=
  { emptyDb with checkpoint := { ckIdle with syncStatus := "syncing" } }

/-- Feature row builder for the examples. -/
def mkRow (i : Int) (m : String) (created : String := "2025-01-01")
    (ga : Option String := some "2026-01") : FeatureRow :=
  { id := i
    title := "Title"
    description := none
    status := "Launched"
    generalAvailabilityDate := ga
    previewAvailabilityDate := none
    created := created
    modified := m }

/-- Fetched feature builder for the examples. -/
def mkFeat (i : Int) (m : String) (prods : List String := ["ProdA"]) : M365RoadmapFeature :=
  { id := i
    title := "Title"
    description := some "Desc"
    cloudInstances := []
    platforms := []
    releaseRings := []
    products := prods
    generalAvailabilityDate := some "2026-01"
    previewAvailabilityDate := none
    status := "In development"
    created := "2025-01-01"
    modified := m
    availabilities := [] }

/-- Store holding one feature modified at the watermark 2026-01-15. -/
def dbWatermarkEx : DbState :=
  { emptyDb with features := [mkRow 1 "2026-01-15T00:00:00Z"] }

/-- Store with five matching Launched features for the pagination examples. -/
def dbFiveEx : DbState :=
  { emptyDb with features :=
      [mkRow 1 "m1", mkRow 2 "m2", mkRow 3 "m3", mkRow 4 "m4", mkRow 5 "m5"] }

/-- Fetch result carrying one feature with a duplicated product tag. -/
def frDupEx : FetchResult :=
  { modified := true, features := [mkFeat 9 "m" ["A", "A"]], etag := some "e" }

/-- Attempt supply with a network error, then a 500 response, then a timeout
abort, for the retry witness. -/
def supplyFailEx : Nat → AttemptOutcome := fun n =>
  if n = 1 then .error "ECONNRESET"
  else if n = 2 then .ok { status := 500, statusText := "Internal Server Error" }
  else .error "timeout"

/-- Outcome projections used to state concrete facts about tool responses. -/
def outcomeTotal : SearchToolOutcome → Option Nat
  | .failure _ => none
  | .ok _ tc _ => some tc

/-- Length of the returned page of a tool response. -/
def outcomeCount : SearchToolOutcome → Option Nat
  | .failure _ => none
  | .ok rs _ _ => some rs.length

/-- hasMore flag of a tool response. -/
def outcomeHasMore : SearchToolOutcome → Option Bool
  | .failure _ => none
  | .ok _ _ hm => some hm

/-- Filters of the pagination example: status Launched, limit 2, offset 2. -/
def flPageEx : M365SearchFilters :=
  { status := some "Launched", limit := some 2, offset := some 2 }

/-- Store holding one feature whose created column reads OLD. -/
def dbCreatedEx : DbState :=
  { emptyDb with features := [mkRow 4 "m0" "OLD"] }

/-- Upsert payload for the same id with created NEW. -/
def featCreatedEx : M365RoadmapFeature :=
  { mkFeat 4 "m1" with created := "NEW" }

/-! ## Helper lemmas -/

theorem strLtb_iff (a b : String) : strLtb a b = true ↔ a < b := by
  rw [String.lt_iff_toList_lt]
  simp [strLtb]

theorem strLeb_iff (a b : String) : strLeb a b = true ↔ a ≤ b := by
  rw [String.le_iff_toList_le]
  simp [strLeb]

theorem startSync_of_syncing {db : DbState} (now : String)
    (h : db.checkpoint.syncStatus = "syncing") : startSync db now = (false, db) := by
  unfold startSync
  rw [if_neg]
  simp [h]

theorem startSync_fst_true_iff (db : DbState) (now : String) :
    (startSync db now).1 = true ↔ db.checkpoint.syncStatus ≠ "syncing" := by
  unfold startSync
  split <;> simp_all

theorem startSync_of_not_syncing {db : DbState} (now : String)
    (h : db.checkpoint.syncStatus ≠ "syncing") :
    startSync db now =
      (true, { db with checkpoint :=
        { db.checkpoint with syncStatus := "syncing", updatedAt := now } }) := by
  unfold startSync
  rw [if_pos h]

theorem completeSyncFailure_syncStatus (db : DbState) (e now : String) :
    (completeSyncFailure db e now).checkpoint.syncStatus = "idle" := rfl

theorem completeSyncSuccess_syncStatus (db : DbState) (ls : String) (rc dms : Int)
    (now : String) :
    (completeSyncSuccess db ls rc dms now).checkpoint.syncStatus = "idle" := rfl

/-! ## Claim theorems -/

/-- C1: when the checkpoint is already syncing, performSync fails with the
message Sync already in progress and leaves the whole store, the checkpoint
row included, unchanged; and the startSync lock transition succeeds exactly
when the prior status was not syncing (failing, it changes nothing). -/
theorem sync_mutual_exclusion (db : DbState) (fetch : Except String FetchResult)
    (now nowIso : String) (dur : Nat)
    (h : db.checkpoint.syncStatus = "syncing") :
    (performSync db fetch now nowIso dur).1.success = false
    ∧ (performSync db fetch now nowIso dur).1.error = some "Sync already in progress"
    ∧ (performSync db fetch now nowIso dur).2 = db
    ∧ (∀ (d : DbState) (n : String),
        ((startSync d n).1 = true ↔ d.checkpoint.syncStatus ≠ "syncing"))
    ∧ (∀ (d : DbState) (n : String),
        (startSync d n).1 = false → (startSync d n).2 = d) := by
  have hps : performSync db fetch now nowIso dur =
      (createSyncFailureResult dur "Sync already in progress", db) := by
    unfold performSync
    rw [startSync_of_syncing now h]
  refine ⟨by rw [hps]; rfl, by rw [hps]; rfl, by rw [hps], ?_, ?_⟩
  · exact fun d n => startSync_fst_true_iff d n
  · intro d n hf
    by_cases hd : d.checkpoint.syncStatus = "syncing"
    · rw [startSync_of_syncing n hd]
    · rw [startSync_of_not_syncing n hd] at hf
      exact absurd hf (by simp)

/-- Witness for C1 at a concrete syncing store. -/
theorem sync_mutual_exclusion_witness :
    dbSyncingEx.checkpoint.syncStatus = "syncing"
    ∧ (performSync dbSyncingEx (.error "boom") "n" "ni" 5).1.success = false
    ∧ (performSync dbSyncingEx (.error "boom") "n" "ni" 5).1.error =
        some "Sync already in progress"
    ∧ (performSync dbSyncingEx (.error "boom") "n" "ni" 5).2 = dbSyncingEx := by
  have := sync_mutual_exclusion dbSyncingEx (.error "boom") "n" "ni" 5 rfl
  exact ⟨rfl, this.1, this.2.1, this.2.2.1⟩

/-- C7: after performSync concludes, the checkpoint is never left at syncing:
when the lock was acquired (prior status not syncing) every path ends with
status idle, and when the lock was refused the store is returned unchanged. -/
theorem sync_status_never_stuck (db : DbState) (fetch : Except String FetchResult)
    (now nowIso : String) (dur : Nat) :
    (db.checkpoint.syncStatus ≠ "syncing" →
      ((performSync db fetch now nowIso dur).2).checkpoint.syncStatus = "idle")
    ∧ (db.checkpoint.syncStatus = "syncing" →
      (performSync db fetch now nowIso dur).2 = db) := by
  constructor
  · intro h
    unfold performSync
    rw [startSync_of_not_syncing now h]
    cases fetch with
    | error e => exact completeSyncFailure_syncStatus ..
    | ok fr =>
      simp only
      split
      · exact completeSyncSuccess_syncStatus ..
      · split
        · exact completeSyncSuccess_syncStatus ..
        · split
          · exact completeSyncFailure_syncStatus ..
          · exact completeSyncSuccess_syncStatus ..
  · intro h
    unfold performSync
    rw [startSync_of_syncing now h]

/-- Witness for C7 at a concrete store and a failing transaction. -/
theorem sync_status_never_stuck_witness :
    emptyDb.checkpoint.syncStatus ≠ "syncing"
    ∧ ((performSync emptyDb
          (.ok { modified := true, features := [mkFeat 9 "m" ["A", "A"]], etag := none })
          "n" "ni" 5).2).checkpoint.syncStatus = "idle" := by
  have := sync_status_never_stuck emptyDb
    (.ok { modified := true, features := [mkFeat 9 "m" ["A", "A"]], etag := none })
    "n" "ni" 5
  exact ⟨by decide, this.1 (by decide)⟩

theorem lmFold_some (l : List FeatureRow) : ∀ m : String,
    ∃ m2, l.foldl lmStep (some m) = some m2 ∧ m ≤ m2 ∧
      (m2 = m ∨ ∃ r ∈ l, r.modified = m2) ∧ ∀ r ∈ l, r.modified ≤ m2 := by
  induction l with
  | nil => exact fun m => ⟨m, rfl, le_refl m, Or.inl rfl, by simp⟩
  | cons r t ih =>
    intro m
    rw [List.foldl_cons]
    by_cases hc : m < r.modified
    · have hstep : lmStep (some m) r = some r.modified := by
        simp [lmStep, strLtb_iff, hc]
      rw [hstep]
      obtain ⟨m2, h1, h2, h3, h4⟩ := ih r.modified
      refine ⟨m2, h1, le_trans (le_of_lt hc) h2, ?_, ?_⟩
      · rcases h3 with h3 | ⟨r2, hr2, hr2m⟩
        · exact Or.inr ⟨r, List.mem_cons_self .., h3.symm⟩
        · exact Or.inr ⟨r2, List.mem_cons_of_mem _ hr2, hr2m⟩
      · intro r2 hr2
        rcases List.mem_cons.mp hr2 with hh | hh
        · rw [hh]; exact h2
        · exact h4 r2 hh
    · have hstep : lmStep (some m) r = some m := by
        simp [lmStep, strLtb_iff, hc]
      rw [hstep]
      obtain ⟨m2, h1, h2, h3, h4⟩ := ih m
      refine ⟨m2, h1, h2, ?_, ?_⟩
      · rcases h3 with h3 | ⟨r2, hr2, hr2m⟩
        · exact Or.inl h3
        · exact Or.inr ⟨r2, List.mem_cons_of_mem _ hr2, hr2m⟩
      · intro r2 hr2
        rcases List.mem_cons.mp hr2 with hh | hh
        · rw [hh]; exact le_trans (not_lt.mp hc) h2
        · exact h4 r2 hh

theorem getLastModified_none_iff (db : DbState) :
    getLastModified db = none ↔ db.features = [] := by
  unfold getLastModified
  cases hf : db.features with
  | nil => simp
  | cons r t =>
    rw [List.foldl_cons]
    have hstep : lmStep none r = some r.modified := rfl
    rw [hstep]
    obtain ⟨m2, h1, _, _, _⟩ := lmFold_some t r.modified
    simp [h1]

theorem getLastModified_isMax (db : DbState) (m : String)
    (h : getLastModified db = some m) :
    (∃ r ∈ db.features, r.modified = m) ∧ ∀ r ∈ db.features, r.modified ≤ m := by
  unfold getLastModified at h
  cases hf : db.features with
  | nil => rw [hf] at h; simp at h
  | cons r t =>
    rw [hf, List.foldl_cons] at h
    have hstep : lmStep none r = some r.modified := rfl
    rw [hstep] at h
    obtain ⟨m2, h1, h2, h3, h4⟩ := lmFold_some t r.modified
    rw [h1] at h
    injection h with h
    subst h
    constructor
    · rcases h3 with h3 | ⟨r2, hr2, hr2m⟩
      · exact ⟨r, List.mem_cons_self .., h3.symm⟩
      · exact ⟨r2, List.mem_cons_of_mem _ hr2, hr2m⟩
    · intro r2 hr2
      rcases List.mem_cons.mp hr2 with hh | hh
      · rw [hh]; exact h2
      · exact h4 r2 hh

theorem mem_featuresToSync (db : DbState) (fs : List M365RoadmapFeature)
    (f : M365RoadmapFeature) :
    f ∈ featuresToSync db fs ↔
      f ∈ fs ∧ ∀ r ∈ db.features, r.modified < f.modified := by
  unfold featuresToSync
  cases h : getLastModified db with
  | none =>
    have hf : db.features = [] := (getLastModified_none_iff db).mp h
    simp [hf]
  | some m =>
    obtain ⟨⟨r0, hr0, hr0m⟩, hmax⟩ := getLastModified_isMax db m h
    rw [List.mem_filter]
    constructor
    · rintro ⟨hf, hlt⟩
      have hlt2 : m < f.modified := (strLtb_iff m f.modified).mp hlt
      exact ⟨hf, fun r hr => lt_of_le_of_lt (hmax r hr) hlt2⟩
    · rintro ⟨hf, hall⟩
      refine ⟨hf, ?_⟩
      have hx := hall r0 hr0
      rw [hr0m] at hx
      exact (strLtb_iff m f.modified).mpr hx

theorem startSync_snd_features (db : DbState) (now : String) :
    ((startSync db now).2).features = db.features := by
  unfold startSync
  split <;> rfl

theorem featuresToSync_eq_of_features {d1 d2 : DbState}
    (h : d1.features = d2.features) (fs : List M365RoadmapFeature) :
    featuresToSync d1 fs = featuresToSync d2 fs := by
  unfold featuresToSync getLastModified
  rw [h]

theorem syncTxn_ok_length :
    ∀ (fs : List M365RoadmapFeature) (d d2 : DbState) (n : Nat),
    syncFeaturesInTransaction d fs = .ok (d2, n) → n = fs.length := by
  intro fs
  induction fs with
  | nil =>
    intro d d2 n h
    simp [syncFeaturesInTransaction] at h
    obtain ⟨-, h2⟩ := h
    simp only [List.length_nil]
    omega
  | cons f fs ih =>
    intro d d2 n h
    unfold syncFeaturesInTransaction at h
    cases h1 : syncOneFeature d f with
    | error e => simp only [h1] at h; exact absurd h (by simp)
    | ok d1 =>
      simp only [h1] at h
      cases h2 : syncFeaturesInTransaction d1 fs with
      | error e => simp only [h2] at h; exact absurd h (by simp)
      | ok p =>
        obtain ⟨dd, nn⟩ := p
        simp only [h2] at h
        simp at h
        obtain ⟨-, h4⟩ := h
        have hn := ih d1 dd nn h2
        simp [List.length_cons]
        omega

theorem performSync_txn_error_eq (db : DbState) (fr : FetchResult)
    (now nowIso : String) (dur : Nat) (e : String)
    (h1 : db.checkpoint.syncStatus ≠ "syncing")
    (h2 : fr.modified = true)
    (h3 : fr.features.isEmpty = false)
    (h4 : syncFeaturesInTransaction (startSync db now).2
        (featuresToSync db fr.features) = .error e) :
    performSync db (.ok fr) now nowIso dur =
      (createSyncFailureResult dur e,
       completeSyncFailure (startSync db now).2 e now) := by
  rw [startSync_of_not_syncing now h1] at h4 ⊢
  have hfeat2 : featuresToSync
      { db with checkpoint :=
          { db.checkpoint with syncStatus := "syncing", updatedAt := now } }
      fr.features = featuresToSync db fr.features :=
    featuresToSync_eq_of_features rfl fr.features
  unfold performSync
  rw [startSync_of_not_syncing now h1]
  simp [h2, h3, hfeat2, h4]

/-- C3: the differential set performSync writes is exactly the fetched
records whose modified strictly exceeds the store watermark, the maximum
modified over stored features per getLastModified (equivalently: strictly
above every stored row); a missing watermark means an empty store, in which
case the whole fetched set is written; and, on the successful write path,
performSync processes exactly that set. -/
theorem sync_differential_set (db : DbState) (fs : List M365RoadmapFeature) :
    (∀ f, f ∈ featuresToSync db fs ↔
        f ∈ fs ∧ ∀ r ∈ db.features, r.modified < f.modified)
    ∧ (getLastModified db = none ↔ db.features = [])
    ∧ (db.features = [] → featuresToSync db fs = fs)
    ∧ (∀ (fr : FetchResult) (now nowIso : String) (dur : Nat) (db2 : DbState) (n : Nat),
        db.checkpoint.syncStatus ≠ "syncing" →
        fr.modified = true →
        fr.features.isEmpty = false →
        syncFeaturesInTransaction (startSync db now).2
            (featuresToSync db fr.features) = .ok (db2, n) →
        (performSync db (.ok fr) now nowIso dur).1.recordsProcessed =
          (featuresToSync db fr.features).length) := by
  refine ⟨mem_featuresToSync db fs, getLastModified_none_iff db, ?_, ?_⟩
  · intro hf
    unfold featuresToSync
    rw [(getLastModified_none_iff db).mpr hf]
  · intro fr now nowIso dur db2 n h1 h2 h3 h4
    have hlen := syncTxn_ok_length (featuresToSync db fr.features) _ db2 n h4
    rw [startSync_of_not_syncing now h1] at h4
    have hfeat2 : featuresToSync
        { db with checkpoint :=
            { db.checkpoint with syncStatus := "syncing", updatedAt := now } }
        fr.features = featuresToSync db fr.features :=
      featuresToSync_eq_of_features rfl fr.features
    unfold performSync
    rw [startSync_of_not_syncing now h1]
    simp only [h2, h3, hfeat2, h4]
    simpa using hlen


/-- Witness for C3 at the spec example: watermark 2026-01-15, fetched records
modified 2026-01-10 and 2026-01-20 — only the second is in the written set. -/
theorem sync_differential_set_witness :
    mkFeat 3 "2026-01-20T00:00:00Z" ∈
        featuresToSync dbWatermarkEx
          [mkFeat 2 "2026-01-10T00:00:00Z", mkFeat 3 "2026-01-20T00:00:00Z"]
    ∧ mkFeat 2 "2026-01-10T00:00:00Z" ∉
        featuresToSync dbWatermarkEx
          [mkFeat 2 "2026-01-10T00:00:00Z", mkFeat 3 "2026-01-20T00:00:00Z"] := by
  constructor
  · refine ((sync_differential_set dbWatermarkEx
      [mkFeat 2 "2026-01-10T00:00:00Z", mkFeat 3 "2026-01-20T00:00:00Z"]).1
        (mkFeat 3 "2026-01-20T00:00:00Z")).mpr ⟨by decide, ?_⟩
    intro r hr
    rw [show dbWatermarkEx.features = [mkRow 1 "2026-01-15T00:00:00Z"] from rfl,
      List.mem_singleton] at hr
    subst hr
    rw [String.lt_iff_toList_lt]
    decide
  · intro hmem
    have hchar := ((sync_differential_set dbWatermarkEx
      [mkFeat 2 "2026-01-10T00:00:00Z", mkFeat 3 "2026-01-20T00:00:00Z"]).1
        (mkFeat 2 "2026-01-10T00:00:00Z")).mp hmem
    have hlt := hchar.2 (mkRow 1 "2026-01-15T00:00:00Z") (by decide)
    exact absurd hlt (by rw [String.lt_iff_toList_lt]; decide)

/-- C2: when any record of the batch fails inside the sync transaction, the
whole transaction is rolled back — every table is exactly as before the sync —
performSync reports failure with the error message, and only sync_status,
last_error and updated_at of the checkpoint change (to idle, the message, and
the current time), last_sync and record_count keeping their prior values. -/
theorem sync_transaction_rollback (db : DbState) (fr : FetchResult)
    (now nowIso : String) (dur : Nat) (e : String)
    (h1 : db.checkpoint.syncStatus ≠ "syncing")
    (h2 : fr.modified = true)
    (h3 : fr.features.isEmpty = false)
    (h4 : syncFeaturesInTransaction (startSync db now).2
        (featuresToSync db fr.features) = .error e) :
    (performSync db (.ok fr) now nowIso dur).1.success = false
    ∧ (performSync db (.ok fr) now nowIso dur).1.error = some e
    ∧ (performSync db (.ok fr) now nowIso dur).2.features = db.features
    ∧ (performSync db (.ok fr) now nowIso dur).2.featureProducts = db.featureProducts
    ∧ (performSync db (.ok fr) now nowIso dur).2.featurePlatforms = db.featurePlatforms
    ∧ (performSync db (.ok fr) now nowIso dur).2.featureCloudInstances
        = db.featureCloudInstances
    ∧ (performSync db (.ok fr) now nowIso dur).2.featureReleaseRings
        = db.featureReleaseRings
    ∧ (performSync db (.ok fr) now nowIso dur).2.featureAvailabilities
        = db.featureAvailabilities
    ∧ (performSync db (.ok fr) now nowIso dur).2.etag = db.etag
    ∧ (performSync db (.ok fr) now nowIso dur).2.checkpoint.lastSync
        = db.checkpoint.lastSync
    ∧ (performSync db (.ok fr) now nowIso dur).2.checkpoint.recordCount
        = db.checkpoint.recordCount
    ∧ (performSync db (.ok fr) now nowIso dur).2.checkpoint.lastSyncDurationMs
        = db.checkpoint.lastSyncDurationMs
    ∧ (performSync db (.ok fr) now nowIso dur).2.checkpoint.syncStatus = "idle"
    ∧ (performSync db (.ok fr) now nowIso dur).2.checkpoint.lastError = some e
    ∧ (performSync db (.ok fr) now nowIso dur).2.checkpoint.updatedAt = now := by
  rw [performSync_txn_error_eq db fr now nowIso dur e h1 h2 h3 h4]
  rw [startSync_of_not_syncing now h1]
  simp [completeSyncFailure, createSyncFailureResult]

/-- Witness for C2 at a concrete batch whose single record carries a
duplicated product tag, which violates the association primary key. -/
theorem sync_transaction_rollback_witness :
    (performSync emptyDb (.ok frDupEx) "n" "ni" 5).1.success = false
    ∧ (performSync emptyDb (.ok frDupEx) "n" "ni" 5).1.error
        = some "Failed to sync feature 9: UNIQUE constraint failed"
    ∧ (performSync emptyDb (.ok frDupEx) "n" "ni" 5).2.features = emptyDb.features
    ∧ (performSync emptyDb (.ok frDupEx) "n" "ni" 5).2.featureProducts
        = emptyDb.featureProducts
    ∧ (performSync emptyDb (.ok frDupEx) "n" "ni" 5).2.checkpoint.lastSync
        = emptyDb.checkpoint.lastSync
    ∧ (performSync emptyDb (.ok frDupEx) "n" "ni" 5).2.checkpoint.syncStatus
        = "idle" := by
  obtain ⟨a1, a2, a3, a4, -, -, -, -, -, a10, -, -, a13, -, -⟩ :=
    sync_transaction_rollback emptyDb frDupEx "n" "ni" 5
      "Failed to sync feature 9: UNIQUE constraint failed"
      (by decide) rfl rfl (by rfl)
  exact ⟨a1, a2, a3, a4, a10, a13⟩


theorem updateRowScalars_id (f : M365RoadmapFeature) (r : FeatureRow) :
    (updateRowScalars f r).id = r.id := by
  unfold updateRowScalars
  split <;> rfl

theorem updateRowScalars_idem (f : M365RoadmapFeature) (r : FeatureRow) :
    updateRowScalars f (updateRowScalars f r) = updateRowScalars f r := by
  unfold updateRowScalars
  by_cases h : r.id = f.id <;> simp [h]

theorem filterIdCount (a : Int) :
    ∀ l : List FeatureRow, (l.map FeatureRow.id).Nodup →
    (l.any (fun r => r.id = a)) = true →
    (l.filter (fun r => r.id = a)).length = 1 := by
  intro l
  induction l with
  | nil => intro _ h; simp at h
  | cons x t ih =>
    intro hnd hany
    rw [List.map_cons, List.nodup_cons] at hnd
    by_cases hx : x.id = a
    · have htl : ∀ r ∈ t, ¬ (r.id = a) := by
        intro r hr hra
        exact hnd.1 (hx ▸ hra ▸ List.mem_map_of_mem FeatureRow.id hr)
      rw [List.filter_cons_of_pos (by simpa using hx)]
      have : t.filter (fun r => r.id = a) = [] := by
        rw [List.filter_eq_nil_iff]
        intro r hr
        simpa using htl r hr
      simp [this]
    · rw [List.filter_cons_of_neg (by simpa using hx)]
      refine ih hnd.2 ?_
      rcases List.any_eq_true.mp hany with ⟨r, hr, hra⟩
      rcases List.mem_cons.mp hr with hh | hh
      · exact absurd (by simpa [hh] using hra) hx
      · exact List.any_eq_true.mpr ⟨r, hh, hra⟩

theorem upsert_not_touching (db : DbState) (f : M365RoadmapFeature) :
    (upsertFeature db f).featureProducts = db.featureProducts
    ∧ (upsertFeature db f).featurePlatforms = db.featurePlatforms
    ∧ (upsertFeature db f).featureCloudInstances = db.featureCloudInstances
    ∧ (upsertFeature db f).featureReleaseRings = db.featureReleaseRings
    ∧ (upsertFeature db f).featureAvailabilities = db.featureAvailabilities
    ∧ (upsertFeature db f).checkpoint = db.checkpoint
    ∧ (upsertFeature db f).etag = db.etag := by
  unfold upsertFeature
  split <;> exact ⟨rfl, rfl, rfl, rfl, rfl, rfl, rfl⟩

theorem upsert_idem (db : DbState) (f : M365RoadmapFeature) :
    upsertFeature (upsertFeature db f) f = upsertFeature db f := by
  unfold upsertFeature
  by_cases h : db.features.any (fun r => r.id = f.id)
  · rw [if_pos h]
    simp only
    have hany2 : (db.features.map (updateRowScalars f)).any (fun r => r.id = f.id) = true := by
      rcases List.any_eq_true.mp h with ⟨r, hr, hra⟩
      refine List.any_eq_true.mpr ⟨updateRowScalars f r, List.mem_map_of_mem _ hr, ?_⟩
      simpa [updateRowScalars_id] using hra
    rw [if_pos hany2, List.map_map]
    congr 1
    apply List.map_congr_left
    intro r _
    exact updateRowScalars_idem f r
  · rw [if_neg h]
    simp only
    have hany2 : ((db.features ++ [rowOfFeature f]).any (fun r => r.id = f.id)) = true := by
      refine List.any_eq_true.mpr ⟨rowOfFeature f, by simp, by simp [rowOfFeature]⟩
    rw [if_pos hany2, List.map_append]
    have h1 : db.features.map (updateRowScalars f) = db.features := by
      conv_rhs => rw [← List.map_id db.features]
      apply List.map_congr_left
      intro r hr
      have hne : ¬ (r.id = f.id) := by
        intro hra
        exact absurd (List.any_eq_true.mpr ⟨r, hr, by simpa using hra⟩) h
      simp [updateRowScalars, hne]
    have h2 : updateRowScalars f (rowOfFeature f) = rowOfFeature f := by
      simp [updateRowScalars, rowOfFeature]
    rw [h1]
    simp [h2]

theorem upsert_count_one (db : DbState) (f : M365RoadmapFeature)
    (hnd : (db.features.map FeatureRow.id).Nodup) :
    ((upsertFeature db f).features.filter (fun r => r.id = f.id)).length = 1 := by
  unfold upsertFeature
  by_cases h : db.features.any (fun r => r.id = f.id)
  · rw [if_pos h]
    simp only
    apply filterIdCount
    · rw [List.map_map]
      have hco : (FeatureRow.id ∘ updateRowScalars f) = FeatureRow.id := by
        funext r
        exact updateRowScalars_id f r
      rw [hco]
      exact hnd
    · rcases List.any_eq_true.mp h with ⟨r, hr, hra⟩
      exact List.any_eq_true.mpr ⟨updateRowScalars f r, List.mem_map_of_mem _ hr,
        by simpa [updateRowScalars_id] using hra⟩
  · rw [if_neg h]
    simp only
    apply filterIdCount
    · rw [List.map_append, List.nodup_append]
      refine ⟨hnd, by simp, ?_⟩
      intro a ha hb
      simp [rowOfFeature] at hb
      subst hb
      rcases List.mem_map.mp ha with ⟨r, hr, hid⟩
      exact absurd (List.any_eq_true.mpr ⟨r, hr, by simpa using hid⟩) h
    · exact List.any_eq_true.mpr ⟨rowOfFeature f, by simp, by simp [rowOfFeature]⟩

theorem upsert_fields (db : DbState) (f : M365RoadmapFeature) :
    ∀ r ∈ (upsertFeature db f).features, r.id = f.id →
      r.title = f.title ∧ r.description = f.description ∧ r.status = f.status
      ∧ r.generalAvailabilityDate = f.generalAvailabilityDate
      ∧ r.previewAvailabilityDate = f.previewAvailabilityDate
      ∧ r.modified = f.modified
      ∧ ((∃ r0 ∈ db.features, r0.id = f.id ∧ r.created = r0.created)
         ∨ ((∀ r0 ∈ db.features, ¬ r0.id = f.id) ∧ r.created = f.created)) := by
  intro r hr hid
  unfold upsertFeature at hr
  by_cases h : db.features.any (fun r => r.id = f.id)
  · rw [if_pos h] at hr
    simp only at hr
    rcases List.mem_map.mp hr with ⟨r0, hr0, heq⟩
    by_cases h0 : r0.id = f.id
    · subst heq
      refine ⟨?_, ?_, ?_, ?_, ?_, ?_, Or.inl ⟨r0, hr0, h0, ?_⟩⟩ <;>
        simp [updateRowScalars, h0]
    · have hrr : r = r0 := by
        rw [← heq]
        simp [updateRowScalars, h0]
      exact absurd (hrr ▸ hid) h0
  · rw [if_neg h] at hr
    simp only at hr
    rcases List.mem_append.mp hr with hh | hh
    · exact absurd (List.any_eq_true.mpr ⟨r, hh, by simpa using hid⟩) h
    · rw [List.mem_singleton] at hh
      subst hh
      refine ⟨rfl, rfl, rfl, rfl, rfl, rfl, Or.inr ⟨?_, rfl⟩⟩
      intro r0 hr0 h0
      exact absurd (List.any_eq_true.mpr ⟨r0, hr0, by simpa using h0⟩) h

/-- C5 counterexample: the claim says upsertFeature overwrites all scalar
fields including created, but updating an existing row (id 4, created OLD)
with a payload whose created is NEW leaves the stored created at OLD — the
ON CONFLICT SET list omits created. -/
theorem upsert_created_counterexample :
    featCreatedEx.created = "NEW"
    ∧ dbCreatedEx.features.map FeatureRow.created = ["OLD"]
    ∧ (upsertFeature dbCreatedEx featCreatedEx).features.map FeatureRow.created
        = ["OLD"] :=
  ⟨rfl, by decide, by decide⟩

/-- C5 amended: upsertFeature is an insert-or-replace keyed on the feature id
that overwrites the scalar fields title, description, status, the two
availability dates and modified, while an existing row keeps its original
created value (created is only written on insert); it touches no association
table, the checkpoint or the etag, errors on neither path, and applying it
twice with identical data yields exactly one stored row for the id with
identical final state. -/
theorem upsert_idempotent_amended (db : DbState) (f : M365RoadmapFeature)
    (hnd : (db.features.map FeatureRow.id).Nodup) :
    upsertFeature (upsertFeature db f) f = upsertFeature db f
    ∧ (upsertFeature db f).featureProducts = db.featureProducts
    ∧ (upsertFeature db f).featurePlatforms = db.featurePlatforms
    ∧ (upsertFeature db f).featureCloudInstances = db.featureCloudInstances
    ∧ (upsertFeature db f).featureReleaseRings = db.featureReleaseRings
    ∧ (upsertFeature db f).featureAvailabilities = db.featureAvailabilities
    ∧ (upsertFeature db f).checkpoint = db.checkpoint
    ∧ (upsertFeature db f).etag = db.etag
    ∧ ((upsertFeature db f).features.filter (fun r => r.id = f.id)).length = 1
    ∧ (∀ r ∈ (upsertFeature db f).features, r.id = f.id →
        r.title = f.title ∧ r.description = f.description ∧ r.status = f.status
        ∧ r.generalAvailabilityDate = f.generalAvailabilityDate
        ∧ r.previewAvailabilityDate = f.previewAvailabilityDate
        ∧ r.modified = f.modified
        ∧ ((∃ r0 ∈ db.features, r0.id = f.id ∧ r.created = r0.created)
           ∨ ((∀ r0 ∈ db.features, ¬ r0.id = f.id) ∧ r.created = f.created))) := by
  obtain ⟨n1, n2, n3, n4, n5, n6, n7⟩ := upsert_not_touching db f
  exact ⟨upsert_idem db f, n1, n2, n3, n4, n5, n6, n7,
    upsert_count_one db f hnd, upsert_fields db f⟩

/-- Witness for the amended C5 at the concrete store with one row. -/
theorem upsert_idempotent_amended_witness :
    (dbCreatedEx.features.map FeatureRow.id).Nodup
    ∧ upsertFeature (upsertFeature dbCreatedEx featCreatedEx) featCreatedEx
        = upsertFeature dbCreatedEx featCreatedEx
    ∧ ((upsertFeature dbCreatedEx featCreatedEx).features.filter
        (fun r => r.id = featCreatedEx.id)).length = 1 := by
  have h := upsert_idempotent_amended dbCreatedEx featCreatedEx (by decide)
  exact ⟨by decide, h.1, h.2.2.2.2.2.2.2.2.1⟩


theorem insertAssoc_err_of_mem (fid : Int) (t : String)
    (tbl : List (Int × String)) (h : (fid, t) ∈ tbl) :
    insertAssoc tbl fid t = .error "UNIQUE constraint failed" := by
  unfold insertAssoc
  rw [if_pos]
  exact List.any_eq_true.mpr ⟨(fid, t), h, by simp⟩

theorem insertAssoc_ok_of_not_mem (fid : Int) (t : String)
    (tbl : List (Int × String)) (h : (fid, t) ∉ tbl) :
    insertAssoc tbl fid t = .ok (tbl ++ [(fid, t)]) := by
  unfold insertAssoc
  rw [if_neg]
  intro hc
  rcases List.any_eq_true.mp hc with ⟨p, hp, hpe⟩
  obtain ⟨p1, p2⟩ := p
  simp at hpe
  exact h (by rw [show (fid, t) = (p1, p2) from by simp [hpe.1, hpe.2]]; exact hp)

theorem insertAssocList_err_of_mem (fid : Int) :
    ∀ (tags : List String) (tbl : List (Int × String)) (t : String),
    t ∈ tags → (fid, t) ∈ tbl →
    ∃ e, insertAssocList tbl fid tags = .error e := by
  intro tags
  induction tags with
  | nil => intro tbl t h; simp at h
  | cons t0 ts ih =>
    intro tbl t ht hmem
    rcases List.mem_cons.mp ht with hh | hh
    · subst hh
      exact ⟨"UNIQUE constraint failed", by
        simp [insertAssocList, Bind.bind, Except.bind,
          insertAssoc_err_of_mem fid t tbl hmem]⟩
    · by_cases h0 : (fid, t0) ∈ tbl
      · exact ⟨"UNIQUE constraint failed", by
          simp [insertAssocList, Bind.bind, Except.bind,
            insertAssoc_err_of_mem fid t0 tbl h0]⟩
      · obtain ⟨e, he⟩ := ih (tbl ++ [(fid, t0)]) t hh (List.mem_append_left _ hmem)
        exact ⟨e, by
          simp [insertAssocList, Bind.bind, Except.bind,
            insertAssoc_ok_of_not_mem fid t0 tbl h0, he]⟩

theorem insertAssocList_err_of_dup (fid : Int) :
    ∀ (tags : List String) (tbl : List (Int × String)),
    ¬ tags.Nodup → ∃ e, insertAssocList tbl fid tags = .error e := by
  intro tags
  induction tags with
  | nil => intro tbl h; exact absurd List.nodup_nil h
  | cons t0 ts ih =>
    intro tbl hnd
    rw [List.nodup_cons] at hnd
    push_neg at hnd
    by_cases h0 : (fid, t0) ∈ tbl
    · exact ⟨"UNIQUE constraint failed", by
        simp [insertAssocList, Bind.bind, Except.bind,
          insertAssoc_err_of_mem fid t0 tbl h0]⟩
    · by_cases hmem : t0 ∈ ts
      · obtain ⟨e, he⟩ := insertAssocList_err_of_mem fid ts (tbl ++ [(fid, t0)]) t0 hmem
          (List.mem_append_right _ (List.mem_singleton.mpr rfl))
        exact ⟨e, by
          simp [insertAssocList, Bind.bind, Except.bind,
            insertAssoc_ok_of_not_mem fid t0 tbl h0, he]⟩
      · obtain ⟨e, he⟩ := ih (tbl ++ [(fid, t0)]) (hnd hmem)
        exact ⟨e, by
          simp [insertAssocList, Bind.bind, Except.bind,
            insertAssoc_ok_of_not_mem fid t0 tbl h0, he]⟩

theorem insertAssocList_ok (fid : Int) :
    ∀ (tags : List String) (tbl : List (Int × String)),
    tags.Nodup → (∀ t ∈ tags, (fid, t) ∉ tbl) →
    insertAssocList tbl fid tags = .ok (tbl ++ tags.map (fun t => (fid, t))) := by
  intro tags
  induction tags with
  | nil => intro tbl _ _; simp [insertAssocList]
  | cons t0 ts ih =>
    intro tbl hnd hni
    rw [List.nodup_cons] at hnd
    have h0 : (fid, t0) ∉ tbl := hni t0 (List.mem_cons_self ..)
    have hrec := ih (tbl ++ [(fid, t0)]) hnd.2 (by
      intro t ht
      rw [List.mem_append]
      push_neg
      refine ⟨hni t (List.mem_cons_of_mem _ ht), ?_⟩
      rw [List.mem_singleton]
      intro hc
      have hts : t = t0 := by simpa using congrArg Prod.snd hc
      exact hnd.1 (hts ▸ ht))
    simp [insertAssocList, Bind.bind, Except.bind,
      insertAssoc_ok_of_not_mem fid t0 tbl h0, hrec, List.append_assoc]

theorem not_mem_deleteAssoc (tbl : List (Int × String)) (fid : Int) (t : String) :
    (fid, t) ∉ deleteAssoc tbl fid := by
  intro hmem
  have hp := List.of_mem_filter hmem
  simp at hp

/-- C10: each replace-associations operation inserts its tag list one by one
with no deduplication, so a list holding the same tag twice makes the second
insert violate the (feature_id, tag) primary key and the operation fails with
an error, for products, platforms, cloud instances and release rings alike;
with distinct tags it succeeds and stores exactly the given tags. -/
theorem replace_assoc_duplicate_fails (db : DbState) (fid : Int) (tags : List String) :
    (¬ tags.Nodup →
      (∃ e, replaceFeatureProducts db fid tags = .error e)
      ∧ (∃ e, replaceFeaturePlatforms db fid tags = .error e)
      ∧ (∃ e, replaceFeatureCloudInstances db fid tags = .error e)
      ∧ (∃ e, replaceFeatureReleaseRings db fid tags = .error e))
    ∧ (tags.Nodup →
      ∃ db2, replaceFeatureProducts db fid tags = .ok db2
        ∧ (db2.featureProducts.filter (fun p => p.1 = fid)).map Prod.snd = tags) := by
  constructor
  · intro hdup
    refine ⟨?_, ?_, ?_, ?_⟩
    · obtain ⟨e, he⟩ := insertAssocList_err_of_dup fid tags
        (deleteAssoc db.featureProducts fid) hdup
      exact ⟨e, by simp [replaceFeatureProducts, he, Except.map]⟩
    · obtain ⟨e, he⟩ := insertAssocList_err_of_dup fid tags
        (deleteAssoc db.featurePlatforms fid) hdup
      exact ⟨e, by simp [replaceFeaturePlatforms, he, Except.map]⟩
    · obtain ⟨e, he⟩ := insertAssocList_err_of_dup fid tags
        (deleteAssoc db.featureCloudInstances fid) hdup
      exact ⟨e, by simp [replaceFeatureCloudInstances, he, Except.map]⟩
    · obtain ⟨e, he⟩ := insertAssocList_err_of_dup fid tags
        (deleteAssoc db.featureReleaseRings fid) hdup
      exact ⟨e, by simp [replaceFeatureReleaseRings, he, Except.map]⟩
  · intro hnd
    have hok := insertAssocList_ok fid tags (deleteAssoc db.featureProducts fid) hnd
      (fun t _ => not_mem_deleteAssoc db.featureProducts fid t)
    have hval : replaceFeatureProducts db fid tags = .ok
        { db with featureProducts :=
            deleteAssoc db.featureProducts fid ++ tags.map (fun t => (fid, t)) } := by
      simp [replaceFeatureProducts, hok, Except.map]
    refine ⟨_, hval, ?_⟩
    simp only
    rw [List.filter_append]
    have h1 : ((deleteAssoc db.featureProducts fid).filter
        (fun p => p.1 = fid)) = [] := by
      rw [List.filter_eq_nil_iff]
      intro p hp
      have hq := List.of_mem_filter (by exact hp : p ∈ deleteAssoc db.featureProducts fid)
      simpa using hq
    have h2 : ((tags.map (fun t => (fid, t))).filter (fun p => p.1 = fid))
        = tags.map (fun t => (fid, t)) := by
      rw [List.filter_eq_self]
      intro p hp
      rcases List.mem_map.mp hp with ⟨t, ht, hte⟩
      simp [← hte]
    rw [h1, h2]
    simp

/-- Witness for C10: duplicated tag list fails, distinct tag list succeeds
and stores the tags exactly. -/
theorem replace_assoc_duplicate_fails_witness :
    (∃ e, replaceFeatureProducts emptyDb 7 ["A", "A"] = .error e)
    ∧ (∃ db2, replaceFeatureProducts emptyDb 7 ["A", "B"] = .ok db2
        ∧ (db2.featureProducts.filter (fun p => p.1 = 7)).map Prod.snd = ["A", "B"]) :=
  ⟨((replace_assoc_duplicate_fails emptyDb 7 ["A", "A"]).1 (by decide)).1,
   (replace_assoc_duplicate_fails emptyDb 7 ["A", "B"]).2 (by decide)⟩

theorem retryLoop_three (supply : Nat → AttemptOutcome) :
    retryLoop supply 3 =
      match classifyAttempt (supply 1) with
      | .notModified r => (.ok (r, true), [])
      | .success r => (.ok (r, false), [])
      | .failed _ => ((retryLoop supply 2).1, 1000 :: (retryLoop supply 2).2) := rfl

theorem retryLoop_two (supply : Nat → AttemptOutcome) :
    retryLoop supply 2 =
      match classifyAttempt (supply 2) with
      | .notModified r => (.ok (r, true), [])
      | .success r => (.ok (r, false), [])
      | .failed _ => ((retryLoop supply 1).1, 2000 :: (retryLoop supply 1).2) := rfl

theorem retryLoop_one (supply : Nat → AttemptOutcome) :
    retryLoop supply 1 =
      match classifyAttempt (supply 3) with
      | .notModified r => (.ok (r, true), [])
      | .success r => (.ok (r, false), [])
      | .failed e => (.error e, []) := rfl

theorem retryLoop_shape (supply : Nat → AttemptOutcome) :
    (retryLoop supply 3).2.length ≤ 2
    ∧ (retryLoop supply 3).2 =
        (List.range (retryLoop supply 3).2.length).map
          (fun i => RETRY_DELAY_MS * 2 ^ i) := by
  rcases h1 : classifyAttempt (supply 1) with r1 | r1 | e1 <;>
    simp only [retryLoop_three, h1]
  · simp
  · simp
  rcases h2 : classifyAttempt (supply 2) with r2 | r2 | e2 <;>
    simp only [retryLoop_two, h2]
  · exact ⟨by decide, by decide⟩
  · exact ⟨by decide, by decide⟩
  rcases h3 : classifyAttempt (supply 3) with r3 | r3 | e3 <;>
    simp only [retryLoop_one, h3] <;> refine ⟨by decide, by decide⟩

/-- C9: fetchWithRetry makes at most 3 attempts; the per-attempt timeout in
force is the option value defaulting to 30000 ms (a timeout abort rejects the
fetch promise and is classified a failure like any network error); between
failed attempts it sleeps exponential backoff delays of 1000 ms then 2000 ms
(1000 * 2 ^ (attempt - 1)); a 304 response returns as not-modified on the
spot; a non-2xx non-304 status classifies as a failure with the HTTP error
message; and after three failed attempts the error of the last attempt is
thrown to the caller. -/
theorem fetch_retry_policy (options : FetchOptions) (supply : Nat → AttemptOutcome) :
    (fetchWithRetry options supply).attemptsUsed ≤ 3
    ∧ (fetchWithRetry options supply).timeoutMsUsed = options.timeoutMs.getD 30000
    ∧ (fetchWithRetry options supply).delays =
        (List.range ((fetchWithRetry options supply).attemptsUsed - 1)).map
          (fun i => RETRY_DELAY_MS * 2 ^ i)
    ∧ (∀ r : HttpResponse, supply 1 = .ok r → r.status = 304 →
        (fetchWithRetry options supply).result = .ok (r, true)
        ∧ (fetchWithRetry options supply).attemptsUsed = 1)
    ∧ (∀ r : HttpResponse, ¬ (200 ≤ r.status ∧ r.status ≤ 299) → r.status ≠ 304 →
        classifyAttempt (.ok r)
          = .failed ("HTTP " ++ toString r.status ++ ": " ++ r.statusText))
    ∧ (∀ e1 e2 e3 : String,
        classifyAttempt (supply 1) = .failed e1 →
        classifyAttempt (supply 2) = .failed e2 →
        classifyAttempt (supply 3) = .failed e3 →
        (fetchWithRetry options supply).result = .error e3
        ∧ (fetchWithRetry options supply).attemptsUsed = 3
        ∧ (fetchWithRetry options supply).delays = [1000, 2000]) := by
  obtain ⟨hlen, hshape⟩ := retryLoop_shape supply
  refine ⟨?_, rfl, ?_, ?_, ?_, ?_⟩
  · simp [fetchWithRetry, MAX_RETRIES]
    omega
  · simp only [fetchWithRetry, MAX_RETRIES]
    simpa using hshape
  · intro r hs h304
    have hcl : classifyAttempt (supply 1) = .notModified r := by
      rw [hs]
      simp [classifyAttempt, h304]
    constructor <;> simp [fetchWithRetry, MAX_RETRIES, retryLoop_three, hcl]
  · intro r hno h304
    have hok : r.isOk = false := by
      simp [HttpResponse.isOk]
      omega
    simp [classifyAttempt, h304, hok]
  · intro e1 e2 e3 hc1 hc2 hc3
    refine ⟨?_, ?_, ?_⟩ <;>
      simp [fetchWithRetry, MAX_RETRIES, retryLoop_three, retryLoop_two,
        retryLoop_one, hc1, hc2, hc3, RETRY_DELAY_MS]

/-- Witness for C9: a network error, a 500, then a timeout exhaust the three
attempts, sleep 1s and 2s, and surface the final error. -/
theorem fetch_retry_policy_witness :
    (fetchWithRetry {} supplyFailEx).result = .error "timeout"
    ∧ (fetchWithRetry {} supplyFailEx).attemptsUsed = 3
    ∧ (fetchWithRetry {} supplyFailEx).delays = [1000, 2000]
    ∧ (fetchWithRetry {} supplyFailEx).timeoutMsUsed = 30000 := by
  have h := fetch_retry_policy {} supplyFailEx
  have h6 := h.2.2.2.2.2 "ECONNRESET" "HTTP 500: Internal Server Error" "timeout"
    (by decide) (by decide) (by decide)
  exact ⟨h6.1, h6.2.1, h6.2.2, by simpa using h.2.1⟩


/-- C4 (modelled from the spec: the sanitizing query builder of the current
queries.ts is missing from src — only its vitest file imports
buildFtsPrefixQuery — so buildFtsPrefixQuery and its use in search are
modelled from the spec text): tokens are sanitized before becoming full-text
prefix terms — Teams (Preview)! yields exactly the terms Teams* and Preview*,
a query of pure punctuation sanitizes to null — and when every token is
dropped the search falls back to the no-text-filter path, identical to the
query being absent, with the other filters still applied. -/
theorem search_text_sanitization :
    buildFtsPrefixQuery "Teams (Preview)!" = some "Teams* Preview*"
    ∧ buildFtsPrefixQuery "(((***)))" = none
    ∧ (∀ (db : DbState) (fl : M365SearchFilters) (q : String),
        fl.query = some q → buildFtsPrefixQuery q = none →
        searchFeaturesCurrent db fl = searchFeaturesWith db none fl
        ∧ searchFeaturesCurrent db fl
            = searchFeaturesCurrent db { fl with query := none }) := by
  refine ⟨by decide, by decide, ?_⟩
  intro db fl q hq hnone
  have h1 : searchFeaturesCurrent db fl = searchFeaturesWith db none fl := by
    unfold searchFeaturesCurrent
    simp only [hq, hnone]
  have h2 : searchFeaturesCurrent db { fl with query := none }
      = searchFeaturesWith db none fl := rfl
  exact ⟨h1, h1.trans h2.symm⟩

/-- Witness for C4 at the all-punctuation query of the spec example. -/
theorem search_text_sanitization_witness :
    buildFtsPrefixQuery "(((***)))" = none
    ∧ searchFeaturesCurrent emptyDb { query := some "(((***)))" }
        = searchFeaturesCurrent emptyDb {} := by
  have h := search_text_sanitization
  exact ⟨h.2.1,
    (h.2.2 emptyDb { query := some "(((***)))" } "(((***)))" rfl (by decide)).2⟩

theorem insertDesc_perm (r : FeatureRow) :
    ∀ l : List FeatureRow, (insertDesc r l).Perm (r :: l) := by
  intro l
  induction l with
  | nil => simp [insertDesc]
  | cons x xs ih =>
    unfold insertDesc
    by_cases h : strLtb x.modified r.modified = true
    · rw [if_pos h]
    · rw [if_neg h]
      exact (ih.cons x).trans (List.Perm.swap r x xs)

theorem sortByModifiedDesc_perm :
    ∀ l : List FeatureRow, (sortByModifiedDesc l).Perm l := by
  intro l
  induction l with
  | nil => simp [sortByModifiedDesc]
  | cons x xs ih =>
    unfold sortByModifiedDesc
    rw [List.foldr_cons]
    exact (insertDesc_perm x _).trans (List.Perm.cons x ih)

theorem insertDesc_sorted (r : FeatureRow) :
    ∀ l : List FeatureRow,
    List.Sorted (fun a b => b.modified ≤ a.modified) l →
    List.Sorted (fun a b => b.modified ≤ a.modified) (insertDesc r l) := by
  intro l
  induction l with
  | nil => intro _; simp [insertDesc]
  | cons x xs ih =>
    intro h
    rw [List.sorted_cons] at h
    unfold insertDesc
    by_cases hc : strLtb x.modified r.modified = true
    · rw [if_pos hc]
      rw [List.sorted_cons]
      have hxr : x.modified ≤ r.modified := le_of_lt ((strLtb_iff _ _).mp hc)
      refine ⟨?_, List.sorted_cons.mpr h⟩
      intro b hb
      rcases List.mem_cons.mp hb with hh | hh
      · rw [hh]; exact hxr
      · exact le_trans (h.1 b hh) hxr
    · rw [if_neg hc]
      rw [List.sorted_cons]
      refine ⟨?_, ih h.2⟩
      intro b hb
      rcases List.mem_cons.mp ((insertDesc_perm r xs).mem_iff.mp hb) with hh | hh
      · rw [hh]
        have : ¬ x.modified < r.modified := fun hx =>
          hc ((strLtb_iff _ _).mpr hx)
        exact not_lt.mp this
      · exact h.1 b hh

theorem sortByModifiedDesc_sorted :
    ∀ l : List FeatureRow,
    List.Sorted (fun a b => b.modified ≤ a.modified) (sortByModifiedDesc l) := by
  intro l
  induction l with
  | nil => simp [sortByModifiedDesc]
  | cons x xs ih =>
    unfold sortByModifiedDesc
    rw [List.foldr_cons]
    exact insertDesc_sorted x _ ih

theorem mem_matchingRows (db : DbState) (ftsQ : Option String)
    (fl : M365SearchFilters) (r : FeatureRow)
    (h : r ∈ matchingRows db ftsQ fl) :
    r ∈ db.features ∧ rowMatchesFilters db fl r = true := by
  unfold matchingRows at h
  cases ftsQ with
  | none =>
    simp only at h
    exact ⟨List.mem_of_mem_filter h, List.of_mem_filter h⟩
  | some q =>
    simp only at h
    have h2 := List.mem_of_mem_filter h
    exact ⟨List.mem_of_mem_filter h2, List.of_mem_filter h2⟩

theorem mem_searchFeaturesWith_results (db : DbState) (ftsQ : Option String)
    (fl : M365SearchFilters) (item : M365SearchResultItem)
    (h : item ∈ (searchFeaturesWith db ftsQ fl).results) :
    ∃ r, r ∈ db.features ∧ rowMatchesFilters db fl r = true
      ∧ item = resultItemOfRow db r := by
  unfold searchFeaturesWith at h
  simp only at h
  rcases List.mem_map.mp h with ⟨r, hr, hitem⟩
  have hmem : r ∈ sortByModifiedDesc (matchingRows db ftsQ fl) := by
    split at hr
    · exact List.mem_of_mem_drop hr
    · exact List.mem_of_mem_drop (List.mem_of_mem_take hr)
  have hmatch := (sortByModifiedDesc_perm _).mem_iff.mp hmem
  obtain ⟨h1, h2⟩ := mem_matchingRows db ftsQ fl r hmatch
  exact ⟨r, h1, h2, hitem.symm⟩

theorem gaDate_of_matches (db : DbState) (fl : M365SearchFilters)
    (r : FeatureRow) (dF dT : String)
    (hF : fl.dateFrom = some dF) (hT : fl.dateTo = some dT)
    (h : rowMatchesFilters db fl r = true) :
    ∃ g, r.generalAvailabilityDate = some g ∧ dF ≤ g ∧ g ≤ dT := by
  unfold rowMatchesFilters at h
  rw [hF, hT] at h
  simp only [Bool.and_eq_true] at h
  obtain ⟨⟨⟨⟨_, h2⟩, h3⟩, _⟩, _⟩ := h
  cases hga : r.generalAvailabilityDate with
  | none => rw [hga] at h2; simp at h2
  | some g =>
    rw [hga] at h2 h3
    exact ⟨g, rfl, (strLeb_iff _ _).mp h2, (strLeb_iff _ _).mp h3⟩

/-- C6: when no filter dimension at all survives normalization (no text
query, no product or platform tags, no status, no date bounds), the handler
synthesizes the YYYY-MM range from the previous calendar month through the
current month and applies it as the GA-date filter, so every returned record
carries a GA date inside that window; and the moment any single dimension is
supplied, effectiveDateRange passes the given bounds through unchanged, with
no implicit window. -/
theorem search_default_window (nowYear : Int) (nowMonth0 : Nat) (db : DbState)
    (params : SearchParams)
    (hq : normalizeOptionalString params.query = none)
    (hp : normalizeOptionalStringArray params.products = none)
    (hpl : normalizeOptionalStringArray params.platforms = none)
    (hs : normalizeOptionalString params.status = none)
    (hdf : normalizeOptionalString params.dateFrom = none)
    (hdt : normalizeOptionalString params.dateTo = none)
    (hlim : params.limit.any (fun l => l < 1 ∨ l > MAX_LIMIT) = false)
    (hoff : params.offset.any (fun o => o < 0) = false) :
    (∃ rs tc hm, handleSearchM365Roadmap nowYear nowMonth0 db params = .ok rs tc hm)
    ∧ (∀ rs tc hm,
        handleSearchM365Roadmap nowYear nowMonth0 db params = .ok rs tc hm →
        ∀ pr ∈ rs, ∃ g, pr.1.generalAvailabilityDate = some g
          ∧ defaultWindowFrom nowYear nowMonth0 ≤ g
          ∧ g ≤ defaultWindowTo nowYear nowMonth0)
    ∧ (∀ (q : Option String) (p pl : Option (List String)) (st df dt : Option String),
        q ≠ none ∨ p ≠ none ∨ pl ≠ none ∨ st ≠ none ∨ df ≠ none ∨ dt ≠ none →
        effectiveDateRange nowYear nowMonth0 q p pl st df dt = (df, dt)) := by
  have hrange : effectiveDateRange nowYear nowMonth0 none none none none none none
      = (some (defaultWindowFrom nowYear nowMonth0),
         some (defaultWindowTo nowYear nowMonth0)) := by
    unfold effectiveDateRange
    rw [if_pos ⟨rfl, rfl, rfl, rfl, rfl, rfl⟩]
  have hEq : handleSearchM365Roadmap nowYear nowMonth0 db params =
      .ok ((searchFeatures db
            { query := none, products := none, platforms := none, status := none,
              dateFrom := some (defaultWindowFrom nowYear nowMonth0),
              dateTo := some (defaultWindowTo nowYear nowMonth0),
              limit := some (params.limit.getD MAX_LIMIT),
              offset := some (params.offset.getD 0) }).results.map
            (fun item => (item, roadmapUrl item.id)))
          (searchFeatures db
            { query := none, products := none, platforms := none, status := none,
              dateFrom := some (defaultWindowFrom nowYear nowMonth0),
              dateTo := some (defaultWindowTo nowYear nowMonth0),
              limit := some (params.limit.getD MAX_LIMIT),
              offset := some (params.offset.getD 0) }).totalCount
          (decide (params.offset.getD 0 +
            ((searchFeatures db
              { query := none, products := none, platforms := none, status := none,
                dateFrom := some (defaultWindowFrom nowYear nowMonth0),
                dateTo := some (defaultWindowTo nowYear nowMonth0),
                limit := some (params.limit.getD MAX_LIMIT),
                offset := some (params.offset.getD 0) }).results.length : Int)
            < ((searchFeatures db
              { query := none, products := none, platforms := none, status := none,
                dateFrom := some (defaultWindowFrom nowYear nowMonth0),
                dateTo := some (defaultWindowTo nowYear nowMonth0),
                limit := some (params.limit.getD MAX_LIMIT),
                offset := some (params.offset.getD 0) }).totalCount : Int))) := by
    unfold handleSearchM365Roadmap
    simp only [hq, hp, hpl, hs, hdf, hdt, hlim, hoff, hrange]
    simp
  refine ⟨⟨_, _, _, hEq⟩, ?_, ?_⟩
  · intro rs tc hm h
    rw [hEq] at h
    simp only [SearchToolOutcome.ok.injEq] at h
    obtain ⟨hrs, -, -⟩ := h
    subst hrs
    intro pr hpr
    rcases List.mem_map.mp hpr with ⟨item, hitem, hpr2⟩
    obtain ⟨r, -, hmatch, hitem2⟩ :=
      mem_searchFeaturesWith_results db none _ item hitem
    obtain ⟨g, hg, h1, h2⟩ := gaDate_of_matches db _ r
      (defaultWindowFrom nowYear nowMonth0) (defaultWindowTo nowYear nowMonth0)
      rfl rfl hmatch
    refine ⟨g, ?_, h1, h2⟩
    rw [← hpr2]
    simp only [hitem2, resultItemOfRow]
    exact hg
  · intro q p pl st df dt hne
    unfold effectiveDateRange
    rw [if_neg]
    rintro ⟨c1, c2, c3, c4, c5, c6⟩
    rcases hne with h | h | h | h | h | h
    · exact h c3
    · exact h c4
    · exact h c5
    · exact h c6
    · exact h c1
    · exact h c2


/-- Witness for C6: with no arguments at all, the January 2026 clock yields
the window 2025-12 through 2026-01 (including the year rollover) and the
handler returns the rows in that window. -/
theorem search_default_window_witness :
    (∃ rs tc hm, handleSearchM365Roadmap 2026 0 dbFiveEx {} = .ok rs tc hm)
    ∧ defaultWindowFrom 2026 0 = "2025-12"
    ∧ defaultWindowTo 2026 0 = "2026-01"
    ∧ outcomeCount (handleSearchM365Roadmap 2026 0 dbFiveEx {}) = some 5 := by
  have h := search_default_window 2026 0 dbFiveEx {} rfl rfl rfl rfl rfl rfl rfl rfl
  exact ⟨h.1, rfl, rfl, by decide⟩

/-- C8: totalCount counts the rows matching the filter criteria with no
LIMIT/OFFSET applied (changing limit and offset never changes it); the
returned page is LIMIT/OFFSET applied after filtering and after ordering —
drop offset then take limit of a list that is a permutation of the matching
rows sorted by modified descending; and the handler returns
hasMore = (offset + returned count < totalCount). -/
theorem search_pagination (db : DbState) (fl : M365SearchFilters) :
    (∀ l o : Option Int,
        (searchFeatures db { fl with limit := l, offset := o }).totalCount
          = (searchFeatures db fl).totalCount)
    ∧ (searchFeatures db fl).totalCount
        = (matchingRows db (sourceFtsChoice fl) fl).length
    ∧ (∀ lv ov : Int, fl.limit = some lv → fl.offset = some ov → 0 ≤ lv →
        (searchFeatures db fl).results
          = (((sortByModifiedDesc (matchingRows db (sourceFtsChoice fl) fl)).drop
              ov.toNat).take lv.toNat).map (resultItemOfRow db))
    ∧ (sortByModifiedDesc (matchingRows db (sourceFtsChoice fl) fl)).Perm
        (matchingRows db (sourceFtsChoice fl) fl)
    ∧ List.Sorted (fun a b => b.modified ≤ a.modified)
        (sortByModifiedDesc (matchingRows db (sourceFtsChoice fl) fl))
    ∧ (∀ (nowYear : Int) (nowMonth0 : Nat) (params : SearchParams)
        (rs : List (M365SearchResultItem × String)) (tc : Nat) (hm : Bool),
        handleSearchM365Roadmap nowYear nowMonth0 db params = .ok rs tc hm →
        hm = decide (params.offset.getD 0 + (rs.length : Int) < (tc : Int))) := by
  refine ⟨fun l o => rfl, rfl, ?_, sortByModifiedDesc_perm _,
    sortByModifiedDesc_sorted _, ?_⟩
  · intro lv ov hl ho h0
    unfold searchFeatures searchFeaturesWith
    rw [hl, ho]
    simp only [Option.getD_some]
    rw [if_neg (not_lt.mpr h0)]
  · intro nowYear nowMonth0 params rs tc hm h
    simp only [handleSearchM365Roadmap] at h
    split at h
    · exact absurd h (by simp)
    split at h
    · exact absurd h (by simp)
    split at h
    · exact absurd h (by simp)
    split at h
    · exact absurd h (by simp)
    split at h
    · exact absurd h (by simp)
    simp only [SearchToolOutcome.ok.injEq] at h
    obtain ⟨hrs, htc, hhm⟩ := h
    subst hrs
    subst htc
    rw [← hhm]
    simp

/-- Witness for C8 at the spec example: five matching rows, limit 2 —
offset 2 returns 2 rows with hasMore true, offset 4 returns 1 row with
hasMore false, and the page is exactly drop 2 then take 2 of the ordered
matching rows. -/
theorem search_pagination_witness :
    outcomeTotal (handleSearchM365Roadmap 2026 0 dbFiveEx
      { status := some "Launched", limit := some 2, offset := some 2 }) = some 5
    ∧ outcomeCount (handleSearchM365Roadmap 2026 0 dbFiveEx
      { status := some "Launched", limit := some 2, offset := some 2 }) = some 2
    ∧ outcomeHasMore (handleSearchM365Roadmap 2026 0 dbFiveEx
      { status := some "Launched", limit := some 2, offset := some 2 }) = some true
    ∧ outcomeCount (handleSearchM365Roadmap 2026 0 dbFiveEx
      { status := some "Launched", limit := some 2, offset := some 4 }) = some 1
    ∧ outcomeHasMore (handleSearchM365Roadmap 2026 0 dbFiveEx
      { status := some "Launched", limit := some 2, offset := some 4 }) = some false
    ∧ (searchFeatures dbFiveEx flPageEx).results
        = (((sortByModifiedDesc (matchingRows dbFiveEx (sourceFtsChoice flPageEx)
            flPageEx)).drop (2 : Int).toNat).take (2 : Int).toNat).map
            (resultItemOfRow dbFiveEx) := by
  refine ⟨by decide, by decide, by decide, by decide, by decide, ?_⟩
  exact (search_pagination dbFiveEx flPageEx).2.2.1 2 2 rfl rfl (by decide)

end M365Update
